/-
  Verification of the opt6502 assembly optimizer core.

  A shallow embedding of the C sources (src/types.h, src/types.c,
  src/ast/parser.c, src/program/program.c, src/analysis/analysis.c,
  src/optimizations/*.c, src/output/output.c, src/optimizations/optimizer.c)
  as executable Lean definitions, followed by theorems about the rewrite
  passes, the pass scheduler, the tokenizer directives and the emitter.

  C linked lists of AstNode records are modelled as Lean lists; in-place
  mutation becomes functional update; the write-only rewrite counter
  `prog->optimizations` is threaded explicitly.  printf tracing is I/O and
  is not modelled (it never mutates the program).
-/
import Mathlib

namespace Opt6502

/-- `NodeType` from types.h. -/
inductive NodeType where
  | NODE_LABEL
  | NODE_OPCODE
  | NODE_BRANCH
  | NODE_JUMP
  | NODE_LOAD
  | NODE_STORE
  | NODE_CONSTANT
  | NODE_REGISTER
  | NODE_EXPRESSION
  | NODE_BLOCK
  | NODE_FUNCTION
  | NODE_ASM_LINE
deriving DecidableEq, Repr

/-- `CpuType` from types.h. -/
inductive CpuType where
  | CPU_6502
  | CPU_65C02
  | CPU_65816
  | CPU_45GS02
deriving DecidableEq, Repr

/-- `AsmConfig` from types.h (the fields the modelled code reads).
The `generic` flag stands for `type == ASM_GENERIC`; the local-label
prefix character is kept as a string as in the C table. -/
structure AsmConfig where
  generic : Bool
  comment_char : String
  supports_colon_labels : Bool
  case_sensitive : Bool
  localLabelPfx : String
  local_labels_numeric : Bool
deriving DecidableEq, Repr

/-- The `ASM_GENERIC` row of the configuration table in types.c. -/
def genericConfig : AsmConfig :=
  { generic := true, comment_char := ";", supports_colon_labels := true,
    case_sensitive := false, localLabelPfx := "@", local_labels_numeric := false }

/-- `AstNode` from types.h, restricted to the fields the modelled passes
read or write (`child`/`sibling` are never used by the optimizer;
`reg_state` is only read by the tracer).  A C `char*` that may be NULL is
an `Option String`; note a NULL pointer (`none`) differs from an empty
string (`some ""`), and the C code distinguishes them. -/
structure Rec where
  type : NodeType
  line_num : Nat
  label : Option String
  opcode : Option String
  operand : Option String
  comment : Option String
  is_dead : Bool
  no_optimize : Bool
  is_local_label : Bool
  is_branch_target : Bool
deriving DecidableEq, Repr

/-- `create_ast_node` field initialisation from ast.c. -/
def emptyRec (n : Nat) : Rec :=
  { type := NodeType.NODE_ASM_LINE, line_num := n, label := none, opcode := none,
    operand := none, comment := none, is_dead := false, no_optimize := false,
    is_local_label := false, is_branch_target := false }

instance : Inhabited Rec := ⟨emptyRec 0⟩

/-- `Program` from types.h (fields read by the modelled code). -/
structure Prog where
  recs : List Rec
  optimizations : Nat
  opt_enabled : Bool
  config : AsmConfig
  cpu_type : CpuType
  allow_65c02 : Bool
  is_45gs02 : Bool
  trace_level : Nat
deriving DecidableEq, Repr

/- ### Tokenizer: types.c helpers, parser.c, program.c -/

/-- C `isspace` on the characters that can occur in a stripped input line. -/
def cIsSpace (c : Char) : Bool :=
  c == ' ' || c == '\t' || c == '\n' || c == '\x0b' || c == '\x0c' || c == '\r'

/-- Advance a scan pointer past whitespace (`while (*p && isspace(*p)) p++`). -/
def skipWs (l : List Char) : List Char := l.dropWhile cIsSpace

/-- `is_comment_start` from types.c: `;` assemblers also accept `//` in
generic mode; reading one past the end of a C string sees the NUL byte,
which is why a lone `/` is not a comment start. -/
def is_comment_start (p : List Char) (cfg : AsmConfig) : Bool :=
  if cfg.comment_char == ";" then
    (cfg.generic && p.take 2 == ['/', '/']) || p.headD '\x00' == ';'
  else if cfg.comment_char == "//" then
    p.take 2 == ['/', '/']
  else
    false

/-- `is_local_label` from types.c. -/
def is_local_label_fn (label : String) (cfg : AsmConfig) : Bool :=
  if label.toList.isEmpty then false
  else if label.toList.headD '\x00' == cfg.localLabelPfx.toList.headD '\x00' then true
  else if cfg.local_labels_numeric then label.toList.all Char.isDigit
  else false

/-- A bounded greedy scan: counts characters kept by `keep` (which sees the
whole remaining suffix, so it can test for a comment start), stopping at the
field-length ceiling, at end of string, or at the first rejected character.
This models the `while (*p && ... && i < cap) { i++; p++; }` loops of
parser.c, with the cap passed as fuel. -/
def scanCount (keep : List Char → Bool) : Nat → List Char → Nat
  | 0, _ => 0
  | _, [] => 0
  | Nat.succ k, c :: cs => if keep (c :: cs) then 1 + scanCount keep k cs else 0

/-- Label-character test from parser.c (stops at whitespace, `:`, comment). -/
def labelKeep (cfg : AsmConfig) (s : List Char) : Bool :=
  match s with
  | [] => false
  | c :: _ => !cIsSpace c && c != ':' && !is_comment_start s cfg

/-- Opcode-character test from parser.c (stops at whitespace, comment). -/
def opKeep (cfg : AsmConfig) (s : List Char) : Bool :=
  match s with
  | [] => false
  | c :: _ => !cIsSpace c && !is_comment_start s cfg

/-- Operand-character test from parser.c (stops only at a comment). -/
def operandKeep (cfg : AsmConfig) (s : List Char) : Bool :=
  match s with
  | [] => false
  | _ :: _ => !is_comment_start s cfg

/-- Trailing-whitespace trim of the raw operand (parser.c). -/
def trimTrailWs (l : List Char) : List Char :=
  ((l.reverse).dropWhile cIsSpace).reverse

/-- The opcode/operand/comment tail of `parse_line_ast`, entered with the
scan pointer `p` already positioned after any label.  Returns the node with
opcode, operand and comment filled in (or untouched when the line ends or a
comment follows immediately). -/
def parseOpcodePart (cfg : AsmConfig) (node : Rec) (p : List Char) : Rec :=
  if is_comment_start p cfg || p.headD '\x00' == ' ' then node
  else
    let i := scanCount (opKeep cfg) 15 p
    let opcode := String.mk (p.take i)
    let p1 := skipWs (p.drop i)
    let j := scanCount (operandKeep cfg) 63 p1
    let operand := String.mk (trimTrailWs (p1.take j))
    let p2 := p1.drop j
    let node1 := { node with opcode := some opcode, operand := some operand }
    if is_comment_start p2 cfg && p2 != [] then
      { node1 with comment := some (String.mk p2) }
    else node1

/-- `parse_line_ast` from parser.c.  Faithful details: the label test reads
`line[0]` (the NUL byte for an empty line, which is not a space, so an empty
line takes the label path and allocates an empty label); the label text is
copied from the start of `line`, not from the whitespace-skipped pointer;
a colon confirms a label only for colon-supporting dialects, otherwise any
non-empty first-column token is assumed to be a label. -/
def parse_line_ast (line : List Char) (line_num : Nat) (cfg : AsmConfig) : Rec :=
  let node := emptyRec line_num
  let p0 := skipWs line
  let head0 := line.headD '\x00'
  if head0 != ' ' && head0 != '\t' && !is_comment_start line cfg then
    let i := scanCount (labelKeep cfg) 63 p0
    let label := String.mk (line.take i)
    let node1 := { node with label := some label,
                             is_local_label := is_local_label_fn label cfg }
    let pAfter := p0.drop i
    let step :=
      if cfg.supports_colon_labels && pAfter.headD '\x00' == ':' then
        ({ node1 with type := NodeType.NODE_LABEL }, pAfter.drop 1)
      else if i > 0 && line.headD '\x00' != '\x00' then
        ({ node1 with type := NodeType.NODE_LABEL }, pAfter)
      else (node1, pAfter)
    parseOpcodePart cfg step.1 (skipWs step.2)
  else
    parseOpcodePart cfg node p0

/-- `strncmp(content, lit, lit.length) == 0` on a scan position. -/
def startsWithStr (l : List Char) (s : String) : Bool :=
  l.take s.length == s.toList

/-- The `#NOOPT` / `#OPT` directive check at the top of `add_line_ast`
(program.c): on a line whose first non-blank text is a comment, the text
after the delimiter and optional whitespace is compared against `#NOOPT`
then `#OPT`; the program's enable flag is updated accordingly, BEFORE the
line itself is parsed and latched. -/
def directiveStep (cfg : AsmConfig) (enabled : Bool) (line : List Char) : Bool :=
  let trimmed := skipWs line
  if is_comment_start trimmed cfg then
    let cc := if cfg.comment_char == "//" then trimmed.drop 2 else trimmed.drop 1
    let cc2 := skipWs cc
    if startsWithStr cc2 "#NOOPT" then false
    else if startsWithStr cc2 "#OPT" then true
    else enabled
  else enabled

/-- The `add_line_ast` loop of program.c over a whole input: each line first
runs the directive check (possibly flipping the enable flag), is then parsed,
and the node's `no_optimize` is latched from the CURRENT (post-flip) state. -/
def addLines (cfg : AsmConfig) (enabled : Bool) (n : Nat) : List (List Char) → List Rec
  | [] => []
  | ln :: rest =>
    let e : Bool := directiveStep cfg enabled ln
    { parse_line_ast ln n cfg with no_optimize := !e } :: addLines cfg e (n + 1) rest

/-- `create_program` (program.c) followed by the CPU flag setup in main.c:
`allow_65c02` is set for 65C02/65816, and forced on for 45GS02, which also
sets `is_45gs02`; then the input lines are added one by one. -/
def mkProg (cpu : CpuType) (lines : List String) : Prog :=
  let allowA := cpu == CpuType.CPU_65C02 || cpu == CpuType.CPU_65816
  let is45 := cpu == CpuType.CPU_45GS02
  { recs := addLines genericConfig true 0 (lines.map String.toList),
    optimizations := 0, opt_enabled := true, config := genericConfig,
    cpu_type := cpu, allow_65c02 := allowA || is45, is_45gs02 := is45,
    trace_level := 0 }

/- ### Rewrite passes (src/optimizations) -/

/-- The `node->is_dead || node->no_optimize` skip test shared by all passes. -/
def isSkipped (r : Rec) : Bool := r.is_dead || r.no_optimize

/-- Both operands non-NULL and `strcmp == 0`. -/
def operandEq (a b : Option String) : Bool :=
  match a, b with
  | some x, some y => x == y
  | _, _ => false

/-- `operand && operand[0] == '#'` (an empty operand reads the NUL byte). -/
def startsHash (o : Option String) : Bool :=
  match o with
  | some s => s.toList.headD '\x00' == '#'
  | none => false

/-- Non-NULL opcode equal to one of the given mnemonics. -/
def opcodeIn (r : Rec) (l : List String) : Bool :=
  match r.opcode with
  | some s => l.contains s
  | none => false

/-- The shared traversal of `optimize_peephole_ast` (peephole.c) and
`optimize_load_store_ast` (loadstore.c), whose bodies are identical: at each
live, non-`no_optimize` node, an `LDA` / `STA` / `LDA` window with equal
(non-NULL) first and third operands kills the third record.  The killed
record's own dead/no-optimize/branch-target flags are NOT consulted.
The `Nat` argument is recursion fuel: every step advances the traversal by
at least one record, so `l.length` fuel always suffices; it exists only to
keep the recursion structural (the C loop needs no such bound). -/
def ldaStaLdaGo : Nat → List Rec → List Rec × Nat
  | 0, l => (l, 0)
  | _ + 1, [] => ([], 0)
  | fuel + 1, r :: rest =>
    if isSkipped r then
      let p := ldaStaLdaGo fuel rest
      (r :: p.1, p.2)
    else
      match rest with
      | r1 :: r2 :: rest2 =>
        if r.opcode == some "LDA" && r1.opcode == some "STA" &&
           r2.opcode == some "LDA" && operandEq r.operand r2.operand then
          let p := ldaStaLdaGo fuel (r1 :: { r2 with is_dead := true } :: rest2)
          (r :: p.1, p.2 + 1)
        else
          let p := ldaStaLdaGo fuel (r1 :: r2 :: rest2)
          (r :: p.1, p.2)
      | [r1] =>
        let p := ldaStaLdaGo fuel [r1]
        (r :: p.1, p.2)
      | [] => ([r], 0)

/-- `optimize_register_usage_ast` (regusage.c): a live, non-`no_optimize`
`TAX` followed directly by `TXA` kills both (the second record's own flags
are not consulted).  Fuel as in `ldaStaLdaGo`. -/
def regGo : Nat → List Rec → List Rec × Nat
  | 0, l => (l, 0)
  | _ + 1, [] => ([], 0)
  | fuel + 1, r :: rest =>
    if isSkipped r then
      let p := regGo fuel rest
      (r :: p.1, p.2)
    else
      match rest with
      | r1 :: rest2 =>
        if r.opcode == some "TAX" && r1.opcode == some "TXA" then
          let p := regGo fuel ({ r1 with is_dead := true } :: rest2)
          ({ r with is_dead := true } :: p.1, p.2 + 1)
        else
          let p := regGo fuel (r1 :: rest2)
          (r :: p.1, p.2)
      | [] => ([r], 0)

/-- Opcodes that invalidate accumulator tracking in constant.c. -/
def constModifyOps : List String :=
  ["ADC", "SBC", "AND", "ORA", "EOR", "LDA", "PLA", "TXA", "TYA",
   "ASL", "LSR", "ROL", "ROR"]

/-- `optimize_constant_propagation_ast` (constant.c): a linear scan carrying
`(a_known, last_a_value)`; dead, branch-target or `no_optimize` records reset
tracking and are skipped; an immediate `LDA` records its operand; a later
`LDA` whose operand equals the recorded text is killed; accumulator-modifying
opcodes reset tracking. -/
def constGo : List Rec → Bool → String → List Rec × Nat
  | [], _, _ => ([], 0)
  | r :: rest, aKnown, lastVal =>
    if r.is_dead || r.is_branch_target || r.no_optimize then
      let p := constGo rest false lastVal
      (r :: p.1, p.2)
    else if r.opcode == some "LDA" && startsHash r.operand then
      let p := constGo rest true (r.operand.getD "")
      (r :: p.1, p.2)
    else if aKnown && r.opcode == some "LDA" &&
            (match r.operand with | some s => s == lastVal | none => false) then
      let p := constGo rest aKnown lastVal
      ({ r with is_dead := true } :: p.1, p.2 + 1)
    else if opcodeIn r constModifyOps then
      let p := constGo rest false lastVal
      (r :: p.1, p.2)
    else
      let p := constGo rest aKnown lastVal
      (r :: p.1, p.2)

/-- Opcodes that consume the accumulator value in cpu65c02.c (keep LDA). -/
def use65Ops : List String :=
  ["ADC", "SBC", "AND", "ORA", "EOR", "CMP", "BIT", "PHA", "TAX", "TAY"]

/-- Opcodes that reload/overwrite the accumulator in cpu65c02.c (LDA safe to drop). -/
def reload65Ops : List String := ["LDA", "PLA", "TXA", "TYA"]

/-- First forward scan of `optimize_65c02_instructions_ast`: starting after
an `LDA #$00`, returns `(found_sta, a_value_used)`.  A branch target stops
the scan before anything else; dead/no-optimize records are stepped over;
`STA` records set `found_sta`; an accumulator-consuming opcode stops with
`a_value_used`; an accumulator-reloading opcode stops without it. -/
def scan65 : List Rec → Bool × Bool
  | [] => (false, false)
  | r :: rest =>
    if r.is_branch_target then (false, false)
    else if isSkipped r then scan65 rest
    else if r.opcode == some "STA" then
      let s := scan65 rest
      (true, s.2)
    else if opcodeIn r use65Ops then (false, true)
    else if opcodeIn r reload65Ops then (false, false)
    else scan65 rest

/-- Second forward scan of `optimize_65c02_instructions_ast`: converts each
live, non-`no_optimize` `STA` to `STZ` (counting each), stopping at a branch
target or at any accumulator-touching opcode. -/
def conv65 : List Rec → List Rec × Nat
  | [] => ([], 0)
  | r :: rest =>
    if r.is_branch_target then (r :: rest, 0)
    else if isSkipped r then
      let p := conv65 rest
      (r :: p.1, p.2)
    else if r.opcode == some "STA" then
      let p := conv65 rest
      ({ r with opcode := some "STZ" } :: p.1, p.2 + 1)
    else if opcodeIn r (reload65Ops ++ use65Ops) then (r :: rest, 0)
    else
      let p := conv65 rest
      (r :: p.1, p.2)

/-- The traversal of `optimize_65c02_instructions_ast` (cpu65c02.c), after
the CPU gate: at each live, non-`no_optimize` `LDA #$00` / `LDA #0`, scan
forward; if any `STA` was found, convert the stores (`conv65`) and kill the
`LDA` only when the accumulator value is not used afterwards.  The kill is
not counted in the rewrite counter (the C code has no increment there).
Fuel as in `ldaStaLdaGo` (`conv65` preserves list length). -/
def go65 : Nat → List Rec → List Rec × Nat
  | 0, l => (l, 0)
  | _ + 1, [] => ([], 0)
  | fuel + 1, r :: rest =>
    if isSkipped r then
      let p := go65 fuel rest
      (r :: p.1, p.2)
    else if r.opcode == some "LDA" &&
            (r.operand == some "#$00" || r.operand == some "#0") then
      let s := scan65 rest
      if s.1 then
        let c := conv65 rest
        let r1 := if s.2 then r else { r with is_dead := true }
        let p := go65 fuel c.1
        (r1 :: p.1, c.2 + p.2)
      else
        let p := go65 fuel rest
        (r :: p.1, p.2)
    else
      let p := go65 fuel rest
      (r :: p.1, p.2)

/-- The look-ahead loop of the second 45GS02 pattern (cpu45gs02.c): after an
`LDZ #v`, each live, non-`no_optimize`, non-branch-target `STA` becomes
`STZ`; an `LDA` with the same immediate directly followed by a `STA` kills
the `LDA` and converts that `STA` (whose own flags are not consulted);
any other `LDA`/`LDZ`/`TAX`/`TAY` stops the scan.
Fuel as in `ldaStaLdaGo`. -/
def zconv (zop : Option String) : Nat → List Rec → List Rec × Nat
  | 0, l => (l, 0)
  | _ + 1, [] => ([], 0)
  | fuel + 1, r :: rest =>
    if isSkipped r then
      let p := zconv zop fuel rest
      (r :: p.1, p.2)
    else if r.opcode == some "STA" && !r.is_branch_target then
      let p := zconv zop fuel rest
      ({ r with opcode := some "STZ" } :: p.1, p.2 + 1)
    else
      match rest with
      | s :: rest2 =>
        if r.opcode == some "LDA" && operandEq r.operand zop &&
           s.opcode == some "STA" then
          let p := zconv zop fuel rest2
          ({ r with is_dead := true } :: { s with opcode := some "STZ" } :: p.1, p.2 + 1)
        else if opcodeIn r ["LDA", "LDZ", "TAX", "TAY"] then (r :: s :: rest2, 0)
        else
          let p := zconv zop fuel (s :: rest2)
          (r :: p.1, p.2)
      | [] =>
        if opcodeIn r ["LDA", "LDZ", "TAX", "TAY"] then ([r], 0)
        else
          let p := zconv zop fuel []
          (r :: p.1, p.2)

/-- The first 45GS02 pattern (cpu45gs02.c): `LDA #v; STA a; LDA #v; STA b`
(same immediate, the three tail records not `no_optimize`) becomes
`LDZ #v; STZ a; STZ b` with the second `LDA` killed (one counted rewrite). -/
def pat45z (r0 : Rec) (rest0 : List Rec) : Rec × List Rec × Nat :=
  match rest0 with
  | r1 :: r2 :: r3 :: rest3 =>
    if r0.opcode == some "LDA" && startsHash r0.operand &&
       r1.opcode == some "STA" &&
       r2.opcode == some "LDA" && startsHash r2.operand &&
       r3.opcode == some "STA" &&
       !r1.no_optimize && !r2.no_optimize && !r3.no_optimize &&
       operandEq r0.operand r2.operand then
      ({ r0 with opcode := some "LDZ" },
       { r1 with opcode := some "STZ" } :: { r2 with is_dead := true } ::
         { r3 with opcode := some "STZ" } :: rest3, 1)
    else (r0, rest0, 0)
  | _ => (r0, rest0, 0)

/-- The second 45GS02 pattern: an `LDZ #v` node triggers the `zconv` scan. -/
def pat45scan (rA : Rec) (l : List Rec) : List Rec × Nat :=
  if rA.opcode == some "LDZ" && startsHash rA.operand then
    zconv rA.operand l.length l
  else (l, 0)

/-- The third 45GS02 pattern: `EOR #$FF; SEC; ADC #$00` becomes `NEG` with
the two trailing records killed. -/
def pat45neg (rA : Rec) (l : List Rec) : Rec × List Rec × Nat :=
  match l with
  | a :: b :: rest2 =>
    if rA.opcode == some "EOR" && rA.operand == some "#$FF" &&
       a.opcode == some "SEC" && b.opcode == some "ADC" &&
       b.operand == some "#$00" && !a.no_optimize && !b.no_optimize &&
       !b.is_branch_target then
      ({ rA with opcode := some "NEG", operand := none },
       { a with is_dead := true } :: { b with is_dead := true } :: rest2, 1)
    else (rA, l, 0)
  | _ => (rA, l, 0)

/-- The fourth 45GS02 pattern: `CMP #$80; ROR` becomes `ASR` with the `ROR`
killed. -/
def pat45asr (rB : Rec) (l : List Rec) : Rec × List Rec × Nat :=
  match l with
  | a :: rest2 =>
    if rB.opcode == some "CMP" && rB.operand == some "#$80" &&
       a.opcode == some "ROR" && !a.no_optimize && !a.is_branch_target then
      ({ rB with opcode := some "ASR", operand := none },
       { a with is_dead := true } :: rest2, 1)
    else (rB, l, 0)
  | [] => (rB, l, 0)

/-- One node visit of `optimize_45gs02_instructions_ast` (cpu45gs02.c) for a
live, non-`no_optimize` node: the four pattern checks run in sequence on the
same node, each seeing the mutations of the previous one (after the first
pattern rewrites `LDA` to `LDZ`, the second pattern's scan fires on the same
visit).  Returns the rewritten node, the rewritten tail, and the number of
counted rewrites. -/
def visit45 (r0 : Rec) (rest0 : List Rec) : Rec × List Rec × Nat :=
  let s1 := pat45z r0 rest0
  let s2 := pat45scan s1.1 s1.2.1
  let s3 := pat45neg s1.1 s2.1
  let s4 := pat45asr s3.1 s3.2.1
  (s4.1, s4.2.1, s1.2.2 + s2.2 + s3.2.2 + s4.2.2)

/-- The traversal of `optimize_45gs02_instructions_ast` after the CPU gate.
Fuel as in `ldaStaLdaGo` (`visit45` preserves the tail length). -/
def go45 : Nat → List Rec → List Rec × Nat
  | 0, l => (l, 0)
  | _ + 1, [] => ([], 0)
  | fuel + 1, r :: rest =>
    if isSkipped r then
      let p := go45 fuel rest
      (r :: p.1, p.2)
    else
      let v := visit45 r rest
      let p := go45 fuel v.2.1
      (v.1 :: p.1, v.2.2 + p.2)

/-- `optimize_jumps_ast` (jumps.c): a live, non-`no_optimize` record with
opcode `JMP` whose successor exists and is a branch target is killed.  The
JMP's operand is never read, and nothing but `JMP` is considered. -/
def jumpsGo : List Rec → List Rec × Nat
  | [] => ([], 0)
  | r :: rest =>
    if isSkipped r then
      let p := jumpsGo rest
      (r :: p.1, p.2)
    else
      match rest with
      | r1 :: _ =>
        if r.opcode == some "JMP" && r1.is_branch_target then
          let p := jumpsGo rest
          ({ r with is_dead := true } :: p.1, p.2 + 1)
        else
          let p := jumpsGo rest
          (r :: p.1, p.2)
      | [] => ([r], 0)

/-- The inner kill loop of `optimize_dead_code_ast` (deadcode.c): marks
records dead (counting EACH, even records that were already dead) while they
are not branch targets, carry no label (a NULL pointer — an empty label
stops the run), are not `no_optimize`, and have a non-NULL opcode. -/
def killRun : List Rec → List Rec × Nat
  | [] => ([], 0)
  | r :: rest =>
    if !r.is_branch_target && r.label == none && !r.no_optimize &&
       r.opcode != none then
      let p := killRun rest
      ({ r with is_dead := true } :: p.1, p.2 + 1)
    else (r :: rest, 0)

/-- `optimize_dead_code_ast` (deadcode.c): after a live, non-`no_optimize`
`JMP`/`RTS`/`RTI` whose successor exists, is not a branch target and has no
label, the following run is killed by `killRun`; the outer scan then
continues over the (now dead) run. -/
def deadGo : Nat → List Rec → List Rec × Nat
  | 0, l => (l, 0)
  | _ + 1, [] => ([], 0)
  | fuel + 1, r :: rest =>
    if isSkipped r then
      let p := deadGo fuel rest
      (r :: p.1, p.2)
    else if opcodeIn r ["JMP", "RTS", "RTI"] &&
            (match rest with
             | r1 :: _ => !r1.is_branch_target && r1.label == none
             | [] => false) then
      let k := killRun rest
      let p := deadGo fuel k.1
      (r :: p.1, k.2 + p.2)
    else
      let p := deadGo fuel rest
      (r :: p.1, p.2)

/- ### Analysis, pass wrappers and the scheduler -/

/-- `mark_branch_targets_ast` (analysis.c): every record whose node type is
`NODE_LABEL` is marked a branch target — whether or not anything refers to
it.  No flag is ever cleared. -/
def markBT (l : List Rec) : List Rec :=
  l.map fun r =>
    if r.type == NodeType.NODE_LABEL then { r with is_branch_target := true } else r

/-- `analyze_call_flow_ast` (analysis.c) — just branch-target marking. -/
def analyze_call_flow_ast (p : Prog) : Prog := { p with recs := markBT p.recs }

/-- `optimize_inline_subroutines_ast` (inline.c) is an explicit placeholder:
its body is `(void)prog;` and it performs no mutation at all. -/
def optimize_inline_subroutines_ast (p : Prog) : Prog := p

/-- Lift a record-list traversal to a `Prog` transformation, accumulating
the write-only rewrite counter. -/
def liftPass (f : List Rec → List Rec × Nat) (p : Prog) : Prog :=
  { p with recs := (f p.recs).1, optimizations := p.optimizations + (f p.recs).2 }

def optimize_peephole_ast (p : Prog) : Prog :=
  liftPass (fun l => ldaStaLdaGo l.length l) p

def optimize_load_store_ast (p : Prog) : Prog :=
  liftPass (fun l => ldaStaLdaGo l.length l) p

def optimize_register_usage_ast (p : Prog) : Prog :=
  liftPass (fun l => regGo l.length l) p

def optimize_constant_propagation_ast (p : Prog) : Prog :=
  liftPass (fun l => constGo l false "") p

/-- `optimize_65c02_instructions_ast` with its structural CPU gate:
`if (!prog->allow_65c02 || prog->is_45gs02) return;`. -/
def optimize_65c02_instructions_ast (p : Prog) : Prog :=
  if !p.allow_65c02 || p.is_45gs02 then p
  else liftPass (fun l => go65 l.length l) p

/-- `optimize_45gs02_instructions_ast` with its structural CPU gate:
`if (!prog->is_45gs02) return;`. -/
def optimize_45gs02_instructions_ast (p : Prog) : Prog :=
  if !p.is_45gs02 then p else liftPass (fun l => go45 l.length l) p

def optimize_jumps_ast (p : Prog) : Prog := liftPass jumpsGo p

def optimize_dead_code_ast (p : Prog) : Prog :=
  liftPass (fun l => deadGo l.length l) p

/-- One round of the scheduler's do-while body (optimizer.c): control-flow
analysis, then the rewrite passes in their hard-coded order, dead-code
elimination last. -/
def runRound (p : Prog) : Prog :=
  optimize_dead_code_ast
    (optimize_jumps_ast
      (optimize_45gs02_instructions_ast
        (optimize_65c02_instructions_ast
          (optimize_constant_propagation_ast
            (optimize_register_usage_ast
              (optimize_load_store_ast
                (optimize_peephole_ast
                  (analyze_call_flow_ast p))))))))

/-- The do-while loop of `optimize_program_ast` (optimizer.c): the fuel is
the number of rounds still allowed (`10 - pass`, so 10 at entry where
`pass = 0`); the body always runs at least once and repeats while the
rewrite counter grew and rounds remain (`pass + 1 < 10` in the C source is
`0 < fuel` here). -/
def optLoop : Nat → Prog → Prog
  | 0, p => p
  | fuel + 1, p =>
    let q := runRound p
    if q.optimizations > p.optimizations ∧ 0 < fuel then optLoop fuel q else q

/-- `optimize_program_ast` (optimizer.c): one-shot analysis + inlining
attempt, then the bounded fixed-point loop.  The trailing
`validate_register_and_flag_tracking` call only reads the program
(registers.c mutates no record field) and is not modelled. -/
def optimize_program_ast (p : Prog) : Prog :=
  optLoop 10 (optimize_inline_subroutines_ast (analyze_call_flow_ast p))

/- ### Emitter (output.c) -/

/-- The per-record body lines of `write_output_ast`: a live record prints
label (with colon for colon-supporting dialects), opcode, operand and
comment; a live record with neither label nor non-empty opcode prints
nothing; a dead record prints a trace comment only at `trace_level > 0`. -/
def emitRecord (cfg : AsmConfig) (trace_level : Nat) (r : Rec) : List String :=
  if !r.is_dead then
    let hasOp : Bool := match r.opcode with | some s => s != "" | none => false
    let opPart : String :=
      (r.opcode.getD "") ++
      (match r.operand with
       | some s => if s != "" then " " ++ s else ""
       | none => "") ++
      (match r.comment with
       | some s => if s != "" then "\t" ++ s else ""
       | none => "")
    match r.label with
    | some lab =>
      let labTxt := lab ++ (if cfg.supports_colon_labels then ":" else "")
      if hasOp then [labTxt ++ "\t" ++ opPart] else [labTxt]
    | none => if hasOp then ["    " ++ opPart] else []
  else if trace_level > 0 then
    [cfg.comment_char ++ " OPT: Removed - " ++ (r.label.getD "unknown")]
  else []

/-- The instruction body of the output file (header comment block omitted;
it carries no record content). -/
def writeOutputBody (p : Prog) : List String :=
  (p.recs.map (emitRecord p.config p.trace_level)).flatten

/- ### Concrete programs used in the scenario theorems -/

/-- The zero-store scenario input `LDA #$00 / STA $D020 / STA $D021`
(instructions indented, as assembly instruction lines are). -/
def zeroStoreLines : List String := ["\tLDA #$00", "\tSTA $D020", "\tSTA $D021"]

/-- Scenario A: the zero-store input tokenized for a 65C02 target. -/
def scenarioA : Prog := mkProg CpuType.CPU_65C02 zeroStoreLines

/-- Scenario B: the same input tokenized for a 45GS02 target. -/
def scenarioB : Prog := mkProg CpuType.CPU_45GS02 zeroStoreLines

/-- A program whose last record is a branch target (the `JMP` target `mid`)
and also the redundant third load of an `LDA/STA/LDA` peephole window. -/
def branchKillProg : Prog :=
  mkProg CpuType.CPU_6502 ["\tJMP mid", "\tLDA #$01", "\tSTA $10", "mid: LDA #$01"]

/-- A subroutine called exactly once with a one-instruction body and a
confirmed return: eligible for inlining under every condition of the spec. -/
def inlineProg : Prog :=
  mkProg CpuType.CPU_6502 ["\tJSR sub", "\tRTS", "sub: LDA #$01", "\tRTS"]

/-- A conditional branch to the immediately following labelled record. -/
def bneProg : Prog := mkProg CpuType.CPU_6502 ["\tBNE skip", "skip: NOP"]

/-- A `BRA` to the immediately following labelled record, on 45GS02. -/
def braProg : Prog := mkProg CpuType.CPU_45GS02 ["\tBRA skip", "skip: NOP"]

/-- A `JMP` whose operand names a label that is NOT the next record's label;
the next record carries an unrelated label. -/
def jmpElsewhereProg : Prog :=
  mkProg CpuType.CPU_6502 ["\tJMP far", "near: NOP", "far: RTS"]

/-- A program with a `#NOOPT` region covering a zero-store pattern. -/
def nooptRegionProg : Prog :=
  mkProg CpuType.CPU_65C02 ["; #NOOPT", "\tLDA #$00", "\tSTA $D020", "; #OPT", "\tNOP"]

/-- The `#NOOPT` directive line. -/
def nooptLine : List Char := ("; #NOOPT").toList

/-- The `#OPT` directive line. -/
def optLine : List Char := ("; #OPT").toList

/-- A single unreferenced label record program, after tokenization and
control-flow analysis. -/
def soloLabelRecs : List Rec :=
  markBT (addLines genericConfig true 0 [("foo: NOP").toList])

/- ### Spec-side definition for the branch-target refinement claim -/

/-- Modelled from the spec: "true if this record's label is referenced by
any control-transfer instruction".  The control-transfer mnemonics of the
6502 family (jumps, subroutine calls, conditional branches, 45GS02 `BRA`),
with the spec's §4.2 reference test: containment of the label name in the
operand text.  This definition follows the spec's words and exists only to
be compared against `markBT`, which the source actually implements. -/
def controlTransferOps : List String :=
  ["JMP", "JSR", "BRA", "BNE", "BEQ", "BCC", "BCS", "BPL", "BMI", "BVC", "BVS"]

/-- C `strstr`-style containment: `a` occurs as a contiguous run in `b`. -/
def containsSeq (a b : List Char) : Bool :=
  (List.range (b.length + 1)).any fun k => (b.drop k).take a.length == a

/-- Modelled from the spec: record `i`'s label is referenced by some
control-transfer instruction elsewhere in the program. -/
def labelReferenced (l : List Rec) (i : Nat) : Bool :=
  match (l.getD i (emptyRec 0)).label with
  | none => false
  | some lab =>
    (List.range l.length).any fun j =>
      decide (j ≠ i) &&
      (match (l.getD j (emptyRec 0)).opcode with
       | some op => controlTransferOps.contains op
       | none => false) &&
      (match (l.getD j (emptyRec 0)).operand with
       | some o => containsSeq lab.toList o.toList
       | none => false)

/- ### Relations used by the no-optimize invariant theorems -/

/-- Two records agree for the no-optimize invariant: same `no_optimize`
flag, same opcode NULL-ness, and — when the record is `no_optimize` — the
same opcode, operand and dead flag. -/
def Agrees (a b : Rec) : Prop :=
  b.no_optimize = a.no_optimize ∧ (b.opcode = none ↔ a.opcode = none) ∧
    (a.no_optimize = true →
      b.opcode = a.opcode ∧ b.operand = a.operand ∧ b.is_dead = a.is_dead)

/-- The boundary relation: between two adjacent records, either the
`no_optimize` flag does not change or the later record has a NULL opcode.
`add_line_ast` guarantees this shape: the flag only flips on `#NOOPT`/`#OPT`
directive lines, which are comment-only and parse with no opcode. -/
def BdryR (a b : Rec) : Prop := a.no_optimize = b.no_optimize ∨ b.opcode = none

instance : DecidableRel BdryR := fun a b => by
  unfold BdryR
  infer_instance

/-- The whole-program boundary invariant. -/
def noOptBoundary (l : List Rec) : Prop := List.Chain' BdryR l

instance (l : List Rec) : Decidable (noOptBoundary l) := by
  unfold noOptBoundary
  infer_instance

/-- A `Prog` transformation that respects the no-optimize invariant. -/
def GoodPass (f : Prog → Prog) : Prop :=
  ∀ q : Prog, noOptBoundary q.recs → List.Forall₂ Agrees q.recs (f q).recs

/- ### Generic facts about the passes -/

theorem jumpsGo_length (l : List Rec) : (jumpsGo l).1.length = l.length := by
  induction l with
  | nil => rfl
  | cons r rest ih =>
    rw [jumpsGo.eq_def]
    repeat' split
    all_goals simp_all

theorem markBT_length (l : List Rec) : (markBT l).length = l.length := by
  simp [markBT]

/-- In every branch of `jumpsGo`, the output is the (possibly killed) head
followed by the recursive result on the tail. -/
theorem jumpsGo_cons (r : Rec) (rest : List Rec) :
    (jumpsGo (r :: rest)).1 =
      (if !isSkipped r &&
          (match rest with
           | r1 :: _ => r.opcode == some "JMP" && r1.is_branch_target
           | [] => false) then { r with is_dead := true } else r) :: (jumpsGo rest).1 := by
  rw [jumpsGo.eq_def]
  repeat' split
  all_goals simp_all [jumpsGo]

/-- Pointwise characterisation of the jump pass: a record is dead afterwards
iff it was dead before, or it is a live, non-`no_optimize` `JMP` whose
successor exists and is a branch target.  The JMP's operand does not occur
in the condition. -/
theorem jumpsGo_dead_iff (l : List Rec) (i : Nat) (d : Rec) :
    ((jumpsGo l).1.getD i d).is_dead =
      ((l.getD i d).is_dead ||
        (!(l.getD i d).is_dead && !(l.getD i d).no_optimize &&
         (l.getD i d).opcode == some "JMP" && decide (i + 1 < l.length) &&
         (l.getD (i + 1) d).is_branch_target)) := by
  induction l generalizing i with
  | nil => simp [jumpsGo]
  | cons r rest ih =>
    rw [jumpsGo_cons]
    cases i with
    | zero =>
      cases rest with
      | nil => simp
      | cons r1 rest2 =>
        simp only [List.getD_cons_zero, List.getD_cons_succ, List.length_cons]
        by_cases hd : r.is_dead <;> by_cases hn : r.no_optimize <;>
          simp [isSkipped, hd, hn] <;> split <;> simp_all
    | succ j =>
      simp only [List.getD_cons_succ, List.length_cons]
      rw [ih j]
      simp

/-- Every record a `jumpsGo` kill touches keeps all fields other than
`is_dead`; in particular nothing but the dead flag changes. -/
theorem jumpsGo_fields (l : List Rec) (i : Nat) (d : Rec) :
    ((jumpsGo l).1.getD i d).opcode = (l.getD i d).opcode ∧
    ((jumpsGo l).1.getD i d).operand = (l.getD i d).operand ∧
    ((jumpsGo l).1.getD i d).label = (l.getD i d).label ∧
    ((jumpsGo l).1.getD i d).is_branch_target = (l.getD i d).is_branch_target ∧
    ((jumpsGo l).1.getD i d).no_optimize = (l.getD i d).no_optimize := by
  induction l generalizing i with
  | nil => simp [jumpsGo]
  | cons r rest ih =>
    rw [jumpsGo_cons]
    cases i with
    | zero => split <;> simp
    | succ j => simpa using ih j

/- ### The no-optimize invariant machinery -/

theorem agrees_refl (a : Rec) : Agrees a a := by
  simp [Agrees]

theorem agrees_trans {a b c : Rec} (h1 : Agrees a b) (h2 : Agrees b c) :
    Agrees a c := by
  obtain ⟨n1, o1, f1⟩ := h1
  obtain ⟨n2, o2, f2⟩ := h2
  refine ⟨n2.trans n1, o2.trans o1, fun hn => ?_⟩
  obtain ⟨p1, q1, d1⟩ := f1 hn
  obtain ⟨p2, q2, d2⟩ := f2 (n1.trans hn)
  exact ⟨p2.trans p1, q2.trans q1, d2.trans d1⟩

/-- A record that is not mutated at all agrees with itself; a record that is
only killed (or whose branch-target flag changes) and is not `no_optimize`
also agrees. -/
theorem agrees_of_untouched {a b : Rec} (hn : b.no_optimize = a.no_optimize)
    (ho : b.opcode = a.opcode) (hop : b.operand = a.operand)
    (hd : b.is_dead = a.is_dead) : Agrees a b := by
  exact ⟨hn, by rw [ho], fun _ => ⟨ho, hop, hd⟩⟩

theorem agrees_not_noopt {a b : Rec} (hn : a.no_optimize = false)
    (hn' : b.no_optimize = a.no_optimize)
    (ho : (b.opcode = none ↔ a.opcode = none)) : Agrees a b := by
  exact ⟨hn', ho, fun h => by rw [hn] at h; cases h⟩

theorem forall2_agrees_refl (l : List Rec) : List.Forall₂ Agrees l l :=
  List.forall₂_same.2 fun a _ => agrees_refl a

theorem forall2_agrees_trans :
    ∀ {l1 l2 l3 : List Rec}, List.Forall₂ Agrees l1 l2 →
      List.Forall₂ Agrees l2 l3 → List.Forall₂ Agrees l1 l3 := by
  intro l1 l2 l3 h1 h2
  induction h1 generalizing l3 with
  | nil => cases h2; exact List.Forall₂.nil
  | cons hab t ih =>
    cases h2 with
    | cons hbc t2 => exact List.Forall₂.cons (agrees_trans hab hbc) (ih t2)

theorem noOptBoundary_tail {a : Rec} {l : List Rec}
    (h : noOptBoundary (a :: l)) : noOptBoundary l := h.tail

theorem noOptBoundary_pair {a b : Rec} {l : List Rec}
    (h : noOptBoundary (a :: b :: l)) : BdryR a b :=
  (List.chain'_cons.1 h).1

/-- Adjacent records with different `no_optimize` flags force a NULL opcode
on the second; contrapositive: a record with a real opcode carries the same
`no_optimize` flag as its predecessor. -/
theorem noOptBoundary_same {a b : Rec} {l : List Rec}
    (h : noOptBoundary (a :: b :: l)) (hop : b.opcode ≠ none) :
    b.no_optimize = a.no_optimize := by
  rcases noOptBoundary_pair h with h1 | h1
  · exact h1.symm
  · exact absurd h1 hop

/-- The boundary invariant transfers along `Agrees` (which preserves the
`no_optimize` flag and opcode NULL-ness pointwise). -/
theorem noOptBoundary_of_forall2 :
    ∀ {l l' : List Rec}, List.Forall₂ Agrees l l' → noOptBoundary l →
      noOptBoundary l' := by
  intro l l' h
  induction h with
  | nil => intro _; exact List.chain'_nil
  | @cons a b t t' hab ht ih =>
    intro hb
    cases ht with
    | nil => exact List.chain'_singleton _
    | @cons c d t2 t2' hcd ht2 =>
      rw [noOptBoundary, List.chain'_cons]
      refine ⟨?_, ih (noOptBoundary_tail hb)⟩
      rcases noOptBoundary_pair hb with h1 | h1
      · exact Or.inl (by rw [hab.1, hcd.1, h1])
      · exact Or.inr (hcd.2.1.2 h1)

/- ### Cons-shape equations for the traversals -/

theorem killRun_cons (r : Rec) (rest : List Rec) : killRun (r :: rest) =
    if !r.is_branch_target && r.label == none && !r.no_optimize && r.opcode != none then
      ({ r with is_dead := true } :: (killRun rest).1, (killRun rest).2 + 1)
    else (r :: rest, 0) := rfl

theorem constGo_cons (r : Rec) (rest : List Rec) (b : Bool) (v : String) :
    constGo (r :: rest) b v =
    if r.is_dead || r.is_branch_target || r.no_optimize then
      ((r :: (constGo rest false v).1), (constGo rest false v).2)
    else if r.opcode == some "LDA" && startsHash r.operand then
      ((r :: (constGo rest true (r.operand.getD "")).1),
        (constGo rest true (r.operand.getD "")).2)
    else if b && r.opcode == some "LDA" &&
            (match r.operand with | some s => s == v | none => false) then
      ({ r with is_dead := true } :: (constGo rest b v).1, (constGo rest b v).2 + 1)
    else if opcodeIn r constModifyOps then
      ((r :: (constGo rest false v).1), (constGo rest false v).2)
    else ((r :: (constGo rest b v).1), (constGo rest b v).2) := rfl

theorem conv65_cons (r : Rec) (rest : List Rec) : conv65 (r :: rest) =
    if r.is_branch_target then (r :: rest, 0)
    else if isSkipped r then ((r :: (conv65 rest).1), (conv65 rest).2)
    else if r.opcode == some "STA" then
      ({ r with opcode := some "STZ" } :: (conv65 rest).1, (conv65 rest).2 + 1)
    else if opcodeIn r (reload65Ops ++ use65Ops) then (r :: rest, 0)
    else ((r :: (conv65 rest).1), (conv65 rest).2) := rfl

theorem scan65_cons (r : Rec) (rest : List Rec) : scan65 (r :: rest) =
    if r.is_branch_target then (false, false)
    else if isSkipped r then scan65 rest
    else if r.opcode == some "STA" then (true, (scan65 rest).2)
    else if opcodeIn r use65Ops then (false, true)
    else if opcodeIn r reload65Ops then (false, false)
    else scan65 rest := rfl

theorem jumpsGo_cons2 (r : Rec) (rest : List Rec) : jumpsGo (r :: rest) =
    if isSkipped r then ((r :: (jumpsGo rest).1), (jumpsGo rest).2)
    else match rest with
      | r1 :: _ =>
        if r.opcode == some "JMP" && r1.is_branch_target then
          ({ r with is_dead := true } :: (jumpsGo rest).1, (jumpsGo rest).2 + 1)
        else ((r :: (jumpsGo rest).1), (jumpsGo rest).2)
      | [] => ([r], 0) := rfl

theorem ldaStaLdaGo_cons (fuel : Nat) (r : Rec) (rest : List Rec) :
    ldaStaLdaGo (fuel + 1) (r :: rest) =
    if isSkipped r then
      ((r :: (ldaStaLdaGo fuel rest).1), (ldaStaLdaGo fuel rest).2)
    else
      match rest with
      | r1 :: r2 :: rest2 =>
        if r.opcode == some "LDA" && r1.opcode == some "STA" &&
           r2.opcode == some "LDA" && operandEq r.operand r2.operand then
          (r :: (ldaStaLdaGo fuel (r1 :: { r2 with is_dead := true } :: rest2)).1,
            (ldaStaLdaGo fuel (r1 :: { r2 with is_dead := true } :: rest2)).2 + 1)
        else
          (r :: (ldaStaLdaGo fuel (r1 :: r2 :: rest2)).1,
            (ldaStaLdaGo fuel (r1 :: r2 :: rest2)).2)
      | [r1] =>
        ((r :: (ldaStaLdaGo fuel [r1]).1), (ldaStaLdaGo fuel [r1]).2)
      | [] => ([r], 0) := rfl

theorem regGo_cons (fuel : Nat) (r : Rec) (rest : List Rec) :
    regGo (fuel + 1) (r :: rest) =
    if isSkipped r then ((r :: (regGo fuel rest).1), (regGo fuel rest).2)
    else
      match rest with
      | r1 :: rest2 =>
        if r.opcode == some "TAX" && r1.opcode == some "TXA" then
          ({ r with is_dead := true } ::
              (regGo fuel ({ r1 with is_dead := true } :: rest2)).1,
            (regGo fuel ({ r1 with is_dead := true } :: rest2)).2 + 1)
        else
          ((r :: (regGo fuel (r1 :: rest2)).1), (regGo fuel (r1 :: rest2)).2)
      | [] => ([r], 0) := rfl

theorem zconv_cons (zop : Option String) (fuel : Nat) (r : Rec)
    (rest : List Rec) :
    zconv zop (fuel + 1) (r :: rest) =
    if isSkipped r then
      ((r :: (zconv zop fuel rest).1), (zconv zop fuel rest).2)
    else if r.opcode == some "STA" && !r.is_branch_target then
      ({ r with opcode := some "STZ" } :: (zconv zop fuel rest).1,
        (zconv zop fuel rest).2 + 1)
    else
      match rest with
      | s :: rest2 =>
        if r.opcode == some "LDA" && operandEq r.operand zop &&
           s.opcode == some "STA" then
          ({ r with is_dead := true } :: { s with opcode := some "STZ" } ::
              (zconv zop fuel rest2).1, (zconv zop fuel rest2).2 + 1)
        else if opcodeIn r ["LDA", "LDZ", "TAX", "TAY"] then (r :: s :: rest2, 0)
        else
          ((r :: (zconv zop fuel (s :: rest2)).1), (zconv zop fuel (s :: rest2)).2)
      | [] =>
        if opcodeIn r ["LDA", "LDZ", "TAX", "TAY"] then ([r], 0)
        else ((r :: (zconv zop fuel []).1), (zconv zop fuel []).2) := rfl

theorem go65_cons (fuel : Nat) (r : Rec) (rest : List Rec) :
    go65 (fuel + 1) (r :: rest) =
    if isSkipped r then ((r :: (go65 fuel rest).1), (go65 fuel rest).2)
    else if r.opcode == some "LDA" &&
            (r.operand == some "#$00" || r.operand == some "#0") then
      (if (scan65 rest).1 then
        ((if (scan65 rest).2 then r else { r with is_dead := true }) ::
            (go65 fuel (conv65 rest).1).1,
          (conv65 rest).2 + (go65 fuel (conv65 rest).1).2)
       else ((r :: (go65 fuel rest).1), (go65 fuel rest).2))
    else ((r :: (go65 fuel rest).1), (go65 fuel rest).2) := rfl

theorem go45_cons (fuel : Nat) (r : Rec) (rest : List Rec) :
    go45 (fuel + 1) (r :: rest) =
    if isSkipped r then ((r :: (go45 fuel rest).1), (go45 fuel rest).2)
    else
      ((visit45 r rest).1 :: (go45 fuel (visit45 r rest).2.1).1,
        (visit45 r rest).2.2 + (go45 fuel (visit45 r rest).2.1).2) := rfl

theorem deadGo_cons (fuel : Nat) (r : Rec) (rest : List Rec) :
    deadGo (fuel + 1) (r :: rest) =
    if isSkipped r then ((r :: (deadGo fuel rest).1), (deadGo fuel rest).2)
    else if opcodeIn r ["JMP", "RTS", "RTI"] &&
            (match rest with
             | r1 :: _ => !r1.is_branch_target && r1.label == none
             | [] => false) then
      ((r :: (deadGo fuel (killRun rest).1).1),
        (killRun rest).2 + (deadGo fuel (killRun rest).1).2)
    else ((r :: (deadGo fuel rest).1), (deadGo fuel rest).2) := rfl

theorem optLoop_cons (fuel : Nat) (p : Prog) :
    optLoop (fuel + 1) p =
    if (runRound p).optimizations > p.optimizations ∧ 0 < fuel then
      optLoop fuel (runRound p)
    else runRound p := rfl

/- ### Per-pass no-optimize preservation -/

/-- A record whose `isSkipped` test failed is not `no_optimize`. -/
theorem noopt_of_nskip {r : Rec} (h : ¬isSkipped r = true) :
    r.no_optimize = false := by
  unfold isSkipped at h
  cases hx : r.no_optimize
  · rfl
  · rw [hx] at h; simp at h

theorem opt_iff_none {x y : String} {a b : Option String}
    (ha : a = some x) (hb : b = some y) : a = none ↔ b = none := by
  simp [ha, hb]

theorem markBT_agrees (l : List Rec) : List.Forall₂ Agrees l (markBT l) := by
  induction l with
  | nil => exact List.Forall₂.nil
  | cons r rest ih =>
    rw [markBT, List.map_cons]
    refine List.Forall₂.cons ?_ ih
    by_cases h : r.type == NodeType.NODE_LABEL <;>
      simp only [h, if_true, if_false, Bool.false_eq_true] <;>
      exact agrees_of_untouched rfl rfl rfl rfl

theorem jumpsGo_agrees (l : List Rec) : List.Forall₂ Agrees l (jumpsGo l).1 := by
  induction l with
  | nil => exact List.Forall₂.nil
  | cons r rest ih =>
    rw [jumpsGo_cons]
    refine List.Forall₂.cons ?_ ih
    split
    · next hcond =>
      have hskip : ¬isSkipped r = true := by
        intro h
        rw [h] at hcond
        simp at hcond
      exact agrees_not_noopt (noopt_of_nskip hskip) rfl Iff.rfl
    · exact agrees_refl r

theorem killRun_agrees (l : List Rec) : List.Forall₂ Agrees l (killRun l).1 := by
  induction l with
  | nil => exact List.Forall₂.nil
  | cons r rest ih =>
    rw [killRun_cons]
    split
    · next hcond =>
      have hno : r.no_optimize = false := by
        cases h : r.no_optimize
        · rfl
        · rw [h] at hcond; simp at hcond
      exact List.Forall₂.cons (agrees_not_noopt hno rfl Iff.rfl) ih
    · exact forall2_agrees_refl _

theorem deadGo_agrees : ∀ (fuel : Nat) (l : List Rec),
    List.Forall₂ Agrees l (deadGo fuel l).1 := by
  intro fuel
  induction fuel with
  | zero => intro l; exact forall2_agrees_refl l
  | succ fuel ih =>
    intro l
    match l with
    | [] => exact List.Forall₂.nil
    | r :: rest =>
      rw [deadGo_cons]
      split
      · exact List.Forall₂.cons (agrees_refl r) (ih rest)
      · split
        · exact List.Forall₂.cons (agrees_refl r)
            (forall2_agrees_trans (killRun_agrees rest) (ih (killRun rest).1))
        · exact List.Forall₂.cons (agrees_refl r) (ih rest)

theorem constGo_agrees (l : List Rec) :
    ∀ (b : Bool) (v : String), List.Forall₂ Agrees l (constGo l b v).1 := by
  induction l with
  | nil => intro b v; exact List.Forall₂.nil
  | cons r rest ih =>
    intro b v
    rw [constGo_cons]
    split
    · exact List.Forall₂.cons (agrees_refl r) (ih _ _)
    · next hskip =>
      have hno : r.no_optimize = false := by
        cases h : r.no_optimize
        · rfl
        · rw [h] at hskip; simp at hskip
      split
      · exact List.Forall₂.cons (agrees_refl r) (ih _ _)
      · split
        · exact List.Forall₂.cons (agrees_not_noopt hno rfl Iff.rfl) (ih _ _)
        · split
          · exact List.Forall₂.cons (agrees_refl r) (ih _ _)
          · exact List.Forall₂.cons (agrees_refl r) (ih _ _)

theorem conv65_agrees (l : List Rec) : List.Forall₂ Agrees l (conv65 l).1 := by
  induction l with
  | nil => exact List.Forall₂.nil
  | cons r rest ih =>
    rw [conv65_cons]
    split
    · exact forall2_agrees_refl _
    · next hbt =>
      split
      · exact List.Forall₂.cons (agrees_refl r) ih
      · next hskip =>
        split
        · next hsta =>
          have hop : r.opcode = some "STA" := by simpa using hsta
          exact List.Forall₂.cons
            (agrees_not_noopt (noopt_of_nskip (by simpa using hskip)) rfl
              (opt_iff_none rfl hop)) ih
        · split
          · exact forall2_agrees_refl _
          · exact List.Forall₂.cons (agrees_refl r) ih

theorem go65_agrees : ∀ (fuel : Nat) (l : List Rec),
    List.Forall₂ Agrees l (go65 fuel l).1 := by
  intro fuel
  induction fuel with
  | zero => intro l; exact forall2_agrees_refl l
  | succ fuel ih =>
    intro l
    match l with
    | [] => exact List.Forall₂.nil
    | r :: rest =>
      rw [go65_cons]
      split
      · exact List.Forall₂.cons (agrees_refl r) (ih rest)
      · next hskip =>
        split
        · split
          · refine List.Forall₂.cons ?_
              (forall2_agrees_trans (conv65_agrees rest) (ih (conv65 rest).1))
            split
            · exact agrees_refl r
            · exact agrees_not_noopt (noopt_of_nskip hskip) rfl Iff.rfl
          · exact List.Forall₂.cons (agrees_refl r) (ih rest)
        · exact List.Forall₂.cons (agrees_refl r) (ih rest)

theorem ldaStaLdaGo_agrees : ∀ (fuel : Nat) (l : List Rec),
    noOptBoundary l → List.Forall₂ Agrees l (ldaStaLdaGo fuel l).1 := by
  intro fuel
  induction fuel with
  | zero => intro l _; exact forall2_agrees_refl l
  | succ fuel ih =>
    intro l hb
    match l with
    | [] => exact List.Forall₂.nil
    | r :: rest =>
      rw [ldaStaLdaGo_cons]
      split
      · exact List.Forall₂.cons (agrees_refl r) (ih rest (noOptBoundary_tail hb))
      · next hskip =>
        split
        · next r1 r2 rest2 =>
          split
          · next hcond =>
            simp only [Bool.and_eq_true, beq_iff_eq] at hcond
            obtain ⟨⟨⟨hA, hB⟩, hC⟩, hD⟩ := hcond
            have hnoR : r.no_optimize = false := noopt_of_nskip hskip
            have hnoR1 : r1.no_optimize = false := by
              rw [noOptBoundary_same hb (by rw [hB]; simp), hnoR]
            have hnoR2 : r2.no_optimize = false := by
              rw [noOptBoundary_same (noOptBoundary_tail hb)
                (by rw [hC]; simp), hnoR1]
            have h23 : List.Forall₂ Agrees (r1 :: r2 :: rest2)
                (r1 :: { r2 with is_dead := true } :: rest2) :=
              List.Forall₂.cons (agrees_refl r1)
                (List.Forall₂.cons (agrees_not_noopt hnoR2 rfl Iff.rfl)
                  (forall2_agrees_refl rest2))
            have hb2 : noOptBoundary (r1 :: { r2 with is_dead := true } :: rest2) :=
              noOptBoundary_of_forall2 h23 (noOptBoundary_tail hb)
            exact List.Forall₂.cons (agrees_refl r)
              (forall2_agrees_trans h23 (ih _ hb2))
          · exact List.Forall₂.cons (agrees_refl r)
              (ih _ (noOptBoundary_tail hb))
        · next r1 =>
          exact List.Forall₂.cons (agrees_refl r)
            (ih _ (noOptBoundary_tail hb))
        · exact List.Forall₂.cons (agrees_refl r) List.Forall₂.nil

theorem regGo_agrees : ∀ (fuel : Nat) (l : List Rec),
    noOptBoundary l → List.Forall₂ Agrees l (regGo fuel l).1 := by
  intro fuel
  induction fuel with
  | zero => intro l _; exact forall2_agrees_refl l
  | succ fuel ih =>
    intro l hb
    match l with
    | [] => exact List.Forall₂.nil
    | r :: rest =>
      rw [regGo_cons]
      split
      · exact List.Forall₂.cons (agrees_refl r) (ih rest (noOptBoundary_tail hb))
      · next hskip =>
        split
        · next r1 rest2 =>
          split
          · next hcond =>
            simp only [Bool.and_eq_true, beq_iff_eq] at hcond
            obtain ⟨hA, hB⟩ := hcond
            have hnoR : r.no_optimize = false := noopt_of_nskip hskip
            have hnoR1 : r1.no_optimize = false := by
              rw [noOptBoundary_same hb (by rw [hB]; simp), hnoR]
            have h1 : List.Forall₂ Agrees (r1 :: rest2)
                ({ r1 with is_dead := true } :: rest2) :=
              List.Forall₂.cons (agrees_not_noopt hnoR1 rfl Iff.rfl)
                (forall2_agrees_refl rest2)
            have hb2 : noOptBoundary ({ r1 with is_dead := true } :: rest2) :=
              noOptBoundary_of_forall2 h1 (noOptBoundary_tail hb)
            exact List.Forall₂.cons (agrees_not_noopt hnoR rfl Iff.rfl)
              (forall2_agrees_trans h1 (ih _ hb2))
          · exact List.Forall₂.cons (agrees_refl r)
              (ih _ (noOptBoundary_tail hb))
        · exact List.Forall₂.cons (agrees_refl r) List.Forall₂.nil

theorem zconv_agrees (zop : Option String) : ∀ (fuel : Nat) (l : List Rec),
    noOptBoundary l → List.Forall₂ Agrees l (zconv zop fuel l).1 := by
  intro fuel
  induction fuel with
  | zero => intro l _; exact forall2_agrees_refl l
  | succ fuel ih =>
    intro l hb
    match l with
    | [] => exact List.Forall₂.nil
    | r :: rest =>
      rw [zconv_cons]
      split
      · exact List.Forall₂.cons (agrees_refl r) (ih rest (noOptBoundary_tail hb))
      · next hskip =>
        split
        · next hsta =>
          have hop : r.opcode = some "STA" := by
            simp only [Bool.and_eq_true, beq_iff_eq] at hsta
            exact hsta.1
          exact List.Forall₂.cons
            (agrees_not_noopt (noopt_of_nskip hskip) rfl (opt_iff_none rfl hop))
            (ih rest (noOptBoundary_tail hb))
        · next hnsta =>
          split
          · next s rest2 =>
            split
            · next hcond =>
              simp only [Bool.and_eq_true, beq_iff_eq] at hcond
              obtain ⟨⟨hA, hB⟩, hC⟩ := hcond
              have hnoR : r.no_optimize = false := noopt_of_nskip hskip
              have hnoS : s.no_optimize = false := by
                rw [noOptBoundary_same hb (by rw [hC]; simp), hnoR]
              exact List.Forall₂.cons (agrees_not_noopt hnoR rfl Iff.rfl)
                (List.Forall₂.cons
                  (agrees_not_noopt hnoS rfl (opt_iff_none rfl hC))
                  (ih rest2 (noOptBoundary_tail (noOptBoundary_tail hb))))
            · split
              · exact forall2_agrees_refl _
              · exact List.Forall₂.cons (agrees_refl r)
                  (ih _ (noOptBoundary_tail hb))
          · split
            · exact List.Forall₂.cons (agrees_refl r) List.Forall₂.nil
            · exact List.Forall₂.cons (agrees_refl r) (ih [] List.chain'_nil)

theorem pat45z_agrees (r : Rec) (rest : List Rec)
    (hno : r.no_optimize = false) :
    Agrees r (pat45z r rest).1 ∧ List.Forall₂ Agrees rest (pat45z r rest).2.1 := by
  rw [pat45z.eq_def]
  split
  · next r1 r2 r3 rest3 =>
    split
    · next hcond =>
      simp only [Bool.and_eq_true, beq_iff_eq, Bool.not_eq_true'] at hcond
      obtain ⟨⟨⟨⟨⟨⟨⟨⟨⟨hA, hAh⟩, hB⟩, hC⟩, hCh⟩, hD⟩, h1⟩, h2⟩, h3⟩, hEq⟩ := hcond
      refine ⟨agrees_not_noopt hno rfl (opt_iff_none rfl hA), ?_⟩
      refine List.Forall₂.cons (agrees_not_noopt h1 rfl (opt_iff_none rfl hB)) ?_
      refine List.Forall₂.cons (agrees_not_noopt h2 rfl Iff.rfl) ?_
      exact List.Forall₂.cons (agrees_not_noopt h3 rfl (opt_iff_none rfl hD))
        (forall2_agrees_refl rest3)
    · exact ⟨agrees_refl r, forall2_agrees_refl _⟩
  · exact ⟨agrees_refl r, forall2_agrees_refl _⟩

theorem pat45scan_agrees (r : Rec) (l : List Rec) (hb : noOptBoundary l) :
    List.Forall₂ Agrees l (pat45scan r l).1 := by
  rw [pat45scan]
  split
  · exact zconv_agrees _ _ _ hb
  · exact forall2_agrees_refl _

theorem pat45neg_agrees (r : Rec) (l : List Rec)
    (hno : r.no_optimize = false) :
    Agrees r (pat45neg r l).1 ∧ List.Forall₂ Agrees l (pat45neg r l).2.1 := by
  rw [pat45neg.eq_def]
  split
  · next a b rest2 =>
    split
    · next hcond =>
      simp only [Bool.and_eq_true, beq_iff_eq, Bool.not_eq_true'] at hcond
      obtain ⟨⟨⟨⟨⟨⟨⟨hA, hB⟩, hC⟩, hD⟩, hE⟩, h1⟩, h2⟩, h3⟩ := hcond
      refine ⟨agrees_not_noopt hno rfl (opt_iff_none rfl hA), ?_⟩
      refine List.Forall₂.cons (agrees_not_noopt h1 rfl Iff.rfl) ?_
      exact List.Forall₂.cons (agrees_not_noopt h2 rfl Iff.rfl)
        (forall2_agrees_refl rest2)
    · exact ⟨agrees_refl r, forall2_agrees_refl _⟩
  · exact ⟨agrees_refl r, forall2_agrees_refl _⟩

theorem pat45asr_agrees (r : Rec) (l : List Rec)
    (hno : r.no_optimize = false) :
    Agrees r (pat45asr r l).1 ∧ List.Forall₂ Agrees l (pat45asr r l).2.1 := by
  rw [pat45asr.eq_def]
  split
  · next a rest2 =>
    split
    · next hcond =>
      simp only [Bool.and_eq_true, beq_iff_eq, Bool.not_eq_true'] at hcond
      obtain ⟨⟨⟨⟨hA, hB⟩, hC⟩, h1⟩, h2⟩ := hcond
      refine ⟨agrees_not_noopt hno rfl (opt_iff_none rfl hA), ?_⟩
      exact List.Forall₂.cons (agrees_not_noopt h1 rfl Iff.rfl)
        (forall2_agrees_refl rest2)
    · exact ⟨agrees_refl r, forall2_agrees_refl _⟩
  · exact ⟨agrees_refl r, forall2_agrees_refl _⟩

theorem visit45_agrees (r : Rec) (rest : List Rec)
    (hb : noOptBoundary rest) (hno : r.no_optimize = false) :
    Agrees r (visit45 r rest).1 ∧
      List.Forall₂ Agrees rest (visit45 r rest).2.1 := by
  have h1 := pat45z_agrees r rest hno
  have hno1 : (pat45z r rest).1.no_optimize = false := by rw [h1.1.1, hno]
  have hb1 : noOptBoundary (pat45z r rest).2.1 :=
    noOptBoundary_of_forall2 h1.2 hb
  have h2 := pat45scan_agrees (pat45z r rest).1 (pat45z r rest).2.1 hb1
  have h3 := pat45neg_agrees (pat45z r rest).1 (pat45scan (pat45z r rest).1 (pat45z r rest).2.1).1 hno1
  have hno3 : (pat45neg (pat45z r rest).1
      (pat45scan (pat45z r rest).1 (pat45z r rest).2.1).1).1.no_optimize = false := by
    rw [h3.1.1, hno1]
  have h4 := pat45asr_agrees
    (pat45neg (pat45z r rest).1 (pat45scan (pat45z r rest).1 (pat45z r rest).2.1).1).1
    (pat45neg (pat45z r rest).1 (pat45scan (pat45z r rest).1 (pat45z r rest).2.1).1).2.1
    hno3
  constructor
  · exact agrees_trans h1.1 (agrees_trans h3.1 h4.1)
  · exact forall2_agrees_trans h1.2
      (forall2_agrees_trans h2 (forall2_agrees_trans h3.2 h4.2))

theorem go45_agrees : ∀ (fuel : Nat) (l : List Rec),
    noOptBoundary l → List.Forall₂ Agrees l (go45 fuel l).1 := by
  intro fuel
  induction fuel with
  | zero => intro l _; exact forall2_agrees_refl l
  | succ fuel ih =>
    intro l hb
    match l with
    | [] => exact List.Forall₂.nil
    | r :: rest =>
      rw [go45_cons]
      split
      · exact List.Forall₂.cons (agrees_refl r) (ih rest (noOptBoundary_tail hb))
      · next hskip =>
        have hv := visit45_agrees r rest (noOptBoundary_tail hb)
          (noopt_of_nskip hskip)
        have hb2 : noOptBoundary (visit45 r rest).2.1 :=
          noOptBoundary_of_forall2 hv.2 (noOptBoundary_tail hb)
        exact List.Forall₂.cons hv.1
          (forall2_agrees_trans hv.2 (ih _ hb2))

/- ### Scheduler-level preservation -/

theorem goodPass_comp {f g : Prog → Prog} (hf : GoodPass f) (hg : GoodPass g) :
    GoodPass (fun q => g (f q)) := by
  intro q hb
  have h1 := hf q hb
  exact forall2_agrees_trans h1 (hg (f q) (noOptBoundary_of_forall2 h1 hb))

theorem goodPass_analyze : GoodPass analyze_call_flow_ast := fun q _ =>
  markBT_agrees q.recs

theorem goodPass_peephole : GoodPass optimize_peephole_ast := fun q hb =>
  ldaStaLdaGo_agrees q.recs.length q.recs hb

theorem goodPass_loadstore : GoodPass optimize_load_store_ast := fun q hb =>
  ldaStaLdaGo_agrees q.recs.length q.recs hb

theorem goodPass_regusage : GoodPass optimize_register_usage_ast := fun q hb =>
  regGo_agrees q.recs.length q.recs hb

theorem goodPass_constprop : GoodPass optimize_constant_propagation_ast :=
  fun q _ => constGo_agrees q.recs false ""

theorem goodPass_65c02 : GoodPass optimize_65c02_instructions_ast := by
  intro q hb
  unfold optimize_65c02_instructions_ast
  split
  · exact forall2_agrees_refl _
  · exact go65_agrees q.recs.length q.recs

theorem goodPass_45gs02 : GoodPass optimize_45gs02_instructions_ast := by
  intro q hb
  unfold optimize_45gs02_instructions_ast
  split
  · exact forall2_agrees_refl _
  · exact go45_agrees q.recs.length q.recs hb

theorem goodPass_jumps : GoodPass optimize_jumps_ast := fun q _ =>
  jumpsGo_agrees q.recs

theorem goodPass_deadcode : GoodPass optimize_dead_code_ast := fun q _ =>
  deadGo_agrees q.recs.length q.recs

theorem goodPass_runRound : GoodPass runRound := by
  intro q hb
  exact goodPass_comp (goodPass_comp (goodPass_comp (goodPass_comp
    (goodPass_comp (goodPass_comp (goodPass_comp (goodPass_comp
      goodPass_analyze goodPass_peephole) goodPass_loadstore)
        goodPass_regusage) goodPass_constprop) goodPass_65c02)
          goodPass_45gs02) goodPass_jumps) goodPass_deadcode q hb

theorem optLoop_agrees : ∀ (fuel : Nat) (p : Prog), noOptBoundary p.recs →
    List.Forall₂ Agrees p.recs (optLoop fuel p).recs := by
  intro fuel
  induction fuel with
  | zero => intro p _; exact forall2_agrees_refl _
  | succ fuel ih =>
    intro p hb
    rw [optLoop_cons]
    have h1 := goodPass_runRound p hb
    split
    · exact forall2_agrees_trans h1
        (ih (runRound p) (noOptBoundary_of_forall2 h1 hb))
    · exact h1

theorem iterRound_agrees : ∀ (n : Nat) (p : Prog), noOptBoundary p.recs →
    List.Forall₂ Agrees p.recs (Nat.iterate runRound n p).recs := by
  intro n
  induction n with
  | zero => intro p _; exact forall2_agrees_refl _
  | succ n ih =>
    intro p hb
    rw [Function.iterate_succ_apply]
    have h1 := goodPass_runRound p hb
    exact forall2_agrees_trans h1
      (ih (runRound p) (noOptBoundary_of_forall2 h1 hb))

theorem optimize_program_agrees (p : Prog) (hb : noOptBoundary p.recs) :
    List.Forall₂ Agrees p.recs (optimize_program_ast p).recs := by
  unfold optimize_program_ast optimize_inline_subroutines_ast
  have h1 : List.Forall₂ Agrees p.recs (analyze_call_flow_ast p).recs :=
    goodPass_analyze p hb
  exact forall2_agrees_trans h1
    (optLoop_agrees 10 _ (noOptBoundary_of_forall2 h1 hb))

/- ### Tokenizer facts: directive lines have no opcode; the boundary
invariant holds for every tokenized program -/

theorem is_comment_start_nil (cfg : AsmConfig) :
    is_comment_start [] cfg = false := by
  unfold is_comment_start
  split
  · simp
  · split <;> simp

/-- A comment start is a `;` or a `/`. -/
theorem comment_head {p : List Char} {cfg : AsmConfig}
    (hc : is_comment_start p cfg = true) :
    p.headD '\x00' = ';' ∨ p.headD '\x00' = '/' := by
  rcases p with _ | ⟨c, cs⟩
  · rw [is_comment_start_nil] at hc
    cases hc
  · unfold is_comment_start at hc
    split at hc
    · simp only [Bool.or_eq_true, Bool.and_eq_true, beq_iff_eq] at hc
      rcases hc with ⟨_, h2⟩ | h2
      · rcases cs with _ | ⟨c2, cs2⟩ <;> simp_all
      · simp_all
    · split at hc
      · simp only [beq_iff_eq] at hc
        rcases cs with _ | ⟨c2, cs2⟩ <;> simp_all
      · cases hc

theorem comment_nonempty {p : List Char} {cfg : AsmConfig}
    (hc : is_comment_start p cfg = true) : p ≠ [] := by
  intro h
  rw [h, is_comment_start_nil] at hc
  cases hc

/-- A whitespace-skipped pointer is unchanged by another whitespace skip. -/
theorem skipWs_skipWs (l : List Char) : skipWs (skipWs l) = skipWs l := by
  unfold skipWs
  induction l with
  | nil => rfl
  | cons c cs ih =>
    rw [List.dropWhile_cons]
    split
    · exact ih
    · rw [List.dropWhile_cons]
      split <;> simp_all

/-- The head of a whitespace-skipped pointer is not whitespace. -/
theorem skipWs_head (l : List Char) (c : Char) (hc : cIsSpace c = false) :
    skipWs (c :: l) = c :: l := by
  unfold skipWs
  rw [List.dropWhile_cons]
  simp [hc]

/-- A line whose first non-blank text is a comment parses with a NULL
opcode: the scanner returns before the opcode field is ever allocated. -/
theorem comment_only_no_opcode (cfg : AsmConfig) (ln : List Char) (n : Nat)
    (hc : is_comment_start (skipWs ln) cfg = true) :
    (parse_line_ast ln n cfg).opcode = none := by
  have hlk : scanCount (labelKeep cfg) 63 (skipWs ln) = 0 := by
    rcases hp : skipWs ln with _ | ⟨c, cs⟩
    · rfl
    · rw [scanCount]
      rw [hp] at hc
      simp [labelKeep, hc]
  have hhead := comment_head hc
  have hcolon : ((skipWs ln).headD '\x00' == ':') = false := by
    rcases hhead with h | h <;> rw [h] <;> rfl
  have hsk : skipWs (skipWs ln) = skipWs ln := skipWs_skipWs ln
  unfold parse_line_ast
  dsimp only
  split
  · rw [hlk]
    simp only [List.drop_zero]
    split
    · next hcol =>
      exfalso
      simp only [Bool.and_eq_true, beq_iff_eq] at hcol
      rcases hhead with h | h <;> rw [h] at hcol <;> cases hcol.2
    · split
      · unfold parseOpcodePart
        rw [hsk, hc]
        simp [emptyRec]
      · unfold parseOpcodePart
        rw [hsk, hc]
        simp [emptyRec]
  · unfold parseOpcodePart
    rw [hc]
    simp [emptyRec]

/-- If the directive check flips the enable flag, the line was comment-only
(and therefore parses with no opcode). -/
theorem directive_flip_no_opcode (cfg : AsmConfig) (e : Bool) (ln : List Char)
    (n : Nat) (hne : directiveStep cfg e ln ≠ e) :
    (parse_line_ast ln n cfg).opcode = none := by
  apply comment_only_no_opcode
  cases h : is_comment_start (skipWs ln) cfg
  · exfalso
    apply hne
    unfold directiveStep
    dsimp only
    rw [h]
    simp
  · rfl

/-- Every tokenized program satisfies the boundary invariant: the
`no_optimize` flag changes only across directive records, which carry no
opcode. -/
theorem addLines_boundary (cfg : AsmConfig) :
    ∀ (lines : List (List Char)) (e : Bool) (n : Nat),
      noOptBoundary (addLines cfg e n lines) := by
  intro lines
  induction lines with
  | nil => intro e n; exact List.chain'_nil
  | cons ln rest ih =>
    intro e n
    rw [addLines]
    rw [noOptBoundary, List.chain'_cons']
    refine ⟨?_, ih _ _⟩
    intro y hy
    rcases rest with _ | ⟨ln2, rest2⟩
    · simp [addLines] at hy
    · rw [addLines] at hy
      simp only [List.head?_cons, Option.mem_def, Option.some_inj] at hy
      subst hy
      by_cases he : directiveStep cfg (directiveStep cfg e ln) ln2 =
          directiveStep cfg e ln
      · left
        simp [he]
      · right
        simp [directive_flip_no_opcode cfg _ ln2 _ he]

/- ### Scheduler loop characterisation -/

/-- The do-while loop runs some number `k` of rounds with `1 ≤ k ≤ fuel`
(where `fuel = 10 - pass` rounds remain): every round before the last
increased the cumulative rewrite counter, and if the loop stopped before
exhausting the fuel then the final round made no progress. -/
theorem optLoop_spec : ∀ (fuel : Nat) (q : Prog), 0 < fuel →
    ∃ k, 1 ≤ k ∧ k ≤ fuel ∧ optLoop fuel q = Nat.iterate runRound k q ∧
      (∀ j, j + 1 < k →
        (Nat.iterate runRound (j + 1) q).optimizations >
          (Nat.iterate runRound j q).optimizations) ∧
      (k < fuel →
        ¬((Nat.iterate runRound k q).optimizations >
            (Nat.iterate runRound (k - 1) q).optimizations)) := by
  intro fuel
  induction fuel with
  | zero => intro q h0; exact absurd h0 (by omega)
  | succ fuel ih =>
    intro q _
    rw [optLoop_cons]
    by_cases hcond : (runRound q).optimizations > q.optimizations ∧ 0 < fuel
    · obtain ⟨k', hk1, hk2, heq, hprog, hstop⟩ := ih (runRound q) hcond.2
      refine ⟨k' + 1, by omega, by omega, ?_, ?_, ?_⟩
      · rw [if_pos hcond, heq, Function.iterate_succ_apply]
      · intro j hj
        cases j with
        | zero => simpa using hcond.1
        | succ j2 =>
          have := hprog j2 (by omega)
          simpa [Function.iterate_succ_apply] using this
      · intro hlt
        have := hstop (by omega)
        have hk : k' + 1 - 1 = (k' - 1) + 1 := by omega
        rw [hk]
        simpa [Function.iterate_succ_apply] using this
    · refine ⟨1, le_refl 1, by omega, ?_, ?_, ?_⟩
      · rw [if_neg hcond]
        rfl
      · intro j hj; omega
      · intro hlt
        simp only [Function.iterate_one, Function.iterate_zero, id]
        intro hgt
        exact hcond ⟨hgt, by omega⟩

/- ### Last helper lemmas for the claim theorems -/

theorem forall2_agrees_getD {l l' : List Rec} (h : List.Forall₂ Agrees l l')
    (i : Nat) (d : Rec) (hi : i < l.length) :
    Agrees (l.getD i d) (l'.getD i d) := by
  have hlen := h.length_eq
  have h2 := (List.forall₂_iff_get.1 h).2 i hi (by omega)
  rw [List.getD_eq_get l d hi, List.getD_eq_get l' d (by omega)]
  exact h2

theorem markBT_getD (l : List Rec) (i : Nat) (d : Rec) (hi : i < l.length) :
    ((markBT l).getD i d).is_branch_target =
      ((l.getD i d).is_branch_target ||
        (l.getD i d).type == NodeType.NODE_LABEL) := by
  have hlen : i < (markBT l).length := by
    unfold markBT
    simpa using hi
  rw [List.getD_eq_get _ d hi, List.getD_eq_get _ d hlen]
  unfold markBT
  rw [List.get_map]
  split <;> simp_all

/-- The tokenizer never sets the branch-target flag. -/
theorem parse_line_bt (ln : List Char) (n : Nat) (cfg : AsmConfig) :
    (parse_line_ast ln n cfg).is_branch_target = false := by
  unfold parse_line_ast parseOpcodePart
  dsimp only
  repeat' split
  all_goals rfl

/- ### Claim theorems -/

/-- C1: with CPU = 45GS02 the 65C02 zero-store substitution pass is
structurally gated off (it returns its program unchanged for every program
whose `is_45gs02` flag is set), and optimizing the input
`LDA #$00 / STA $D020 / STA $D021` with CPU = 45GS02 leaves all three
records' opcodes and operands unchanged with a rewrite count of 0. -/
theorem c1_45gs02_zero_store_gated :
    (∀ q : Prog, q.is_45gs02 = true → optimize_65c02_instructions_ast q = q) ∧
    (optimize_program_ast scenarioB).recs.map (fun r => (r.opcode, r.operand)) =
      scenarioB.recs.map (fun r => (r.opcode, r.operand)) ∧
    (optimize_program_ast scenarioB).optimizations = 0 := by
  refine ⟨?_, by decide, by decide⟩
  intro q h
  unfold optimize_65c02_instructions_ast
  rw [h]
  simp

/-- C1 witness: the gate and the scenario applied at the concrete
45GS02 program. -/
theorem c1_witness :
    optimize_65c02_instructions_ast scenarioB = scenarioB ∧
    (optimize_program_ast scenarioB).optimizations = 0 :=
  ⟨c1_45gs02_zero_store_gated.1 scenarioB (by decide),
   c1_45gs02_zero_store_gated.2.2⟩

/-- C2: with CPU = 65C02 the input `LDA #$00 / STA $D020 / STA $D021`
optimizes to `STZ $D020 / STZ $D021` (operands unchanged), the `LDA #$00`
record is marked dead, and the emitted output contains exactly the two
`STZ` lines with the `LDA` absent. -/
theorem c2_65c02_zero_store_substitution :
    (optimize_program_ast scenarioA).recs.map
        (fun r => (r.opcode, r.operand, r.is_dead)) =
      [(some "LDA", some "#$00", true),
       (some "STZ", some "$D020", false),
       (some "STZ", some "$D021", false)] ∧
    writeOutputBody (optimize_program_ast scenarioA) =
      ["    STZ $D020", "    STZ $D021"] := by
  exact ⟨by decide, by decide⟩

/-- C3 (failing input): in the program
`JMP mid / LDA #$01 / STA $10 / mid: LDA #$01` the record `mid: LDA #$01`
is a branch target (the JMP's target), yet the peephole pass kills it as the
redundant third load of an `LDA/STA/LDA` window, and the full optimizer
leaves it dead — contradicting the claim that a branch-target record is
never killed by dead-code elimination, peephole or jump simplification. -/
theorem c3_peephole_kills_branch_target :
    (((optimize_peephole_ast (analyze_call_flow_ast branchKillProg)).recs.getD 3
        (emptyRec 0)).is_dead = true) ∧
    (((optimize_peephole_ast (analyze_call_flow_ast branchKillProg)).recs.getD 3
        (emptyRec 0)).is_branch_target = true) ∧
    (((analyze_call_flow_ast branchKillProg).recs.getD 3
        (emptyRec 0)).is_dead = false) ∧
    (((optimize_program_ast branchKillProg).recs.getD 3
        (emptyRec 0)).is_dead = true) ∧
    (((optimize_program_ast branchKillProg).recs.getD 3
        (emptyRec 0)).label = some "mid") := by
  refine ⟨by decide, by decide, by decide, by decide, by decide⟩

/-- C4: for every tokenized program (any CPU, any input lines), a record
with `no_optimize = true` keeps its opcode, operand and dead flag across the
whole optimizer run, and likewise across any number `n` of scheduler
rounds: no rewrite pass mutates or kills a `no_optimize` record.  (The
tokenizer guarantees the boundary invariant this rests on: the
`no_optimize` flag only changes across comment-only directive records.) -/
theorem c4_no_optimize_inviolable (cpu : CpuType) (lines : List String)
    (n : Nat) (i : Nat) (d : Rec) (hi : i < (mkProg cpu lines).recs.length)
    (hno : ((mkProg cpu lines).recs.getD i d).no_optimize = true) :
    (((optimize_program_ast (mkProg cpu lines)).recs.getD i d).opcode =
        ((mkProg cpu lines).recs.getD i d).opcode ∧
      ((optimize_program_ast (mkProg cpu lines)).recs.getD i d).operand =
        ((mkProg cpu lines).recs.getD i d).operand ∧
      ((optimize_program_ast (mkProg cpu lines)).recs.getD i d).is_dead =
        ((mkProg cpu lines).recs.getD i d).is_dead) ∧
    (((Nat.iterate runRound n (mkProg cpu lines)).recs.getD i d).opcode =
        ((mkProg cpu lines).recs.getD i d).opcode ∧
      ((Nat.iterate runRound n (mkProg cpu lines)).recs.getD i d).operand =
        ((mkProg cpu lines).recs.getD i d).operand ∧
      ((Nat.iterate runRound n (mkProg cpu lines)).recs.getD i d).is_dead =
        ((mkProg cpu lines).recs.getD i d).is_dead) := by
  have hb : noOptBoundary (mkProg cpu lines).recs := addLines_boundary _ _ _ _
  have h := forall2_agrees_getD
    (optimize_program_agrees (mkProg cpu lines) hb) i d hi
  have h2 := forall2_agrees_getD
    (iterRound_agrees n (mkProg cpu lines) hb) i d hi
  exact ⟨h.2.2 hno, h2.2.2 hno⟩

/-- C4 witness: the 65C02 zero-store pattern inside a `#NOOPT` region is
left untouched. -/
theorem c4_witness :
    1 < nooptRegionProg.recs.length ∧
    ((nooptRegionProg.recs.getD 1 (emptyRec 0)).no_optimize = true) ∧
    ((optimize_program_ast nooptRegionProg).recs.getD 1 (emptyRec 0)).opcode =
      (nooptRegionProg.recs.getD 1 (emptyRec 0)).opcode := by
  refine ⟨by decide, by decide, ?_⟩
  exact (c4_no_optimize_inviolable CpuType.CPU_65C02
    ["; #NOOPT", "\tLDA #$00", "\tSTA $D020", "; #OPT", "\tNOP"]
    3 1 (emptyRec 0) (by decide) (by decide)).1.1

/-- C5 counterexample: a conditional branch (`BNE`) to the immediately
following labelled record is NOT killed by the jump-simplification pass, and
neither is a `BRA` on 45GS02 — the pass only ever kills `JMP` records. -/
theorem c5_counterexample :
    (((optimize_jumps_ast (analyze_call_flow_ast bneProg)).recs.getD 0
        (emptyRec 0)).is_dead = false) ∧
    (((analyze_call_flow_ast bneProg).recs.getD 1
        (emptyRec 0)).is_branch_target = true) ∧
    (((optimize_jumps_ast (analyze_call_flow_ast braProg)).recs.getD 0
        (emptyRec 0)).is_dead = false) ∧
    (((analyze_call_flow_ast braProg).recs.getD 1
        (emptyRec 0)).is_branch_target = true) := by
  refine ⟨by decide, by decide, by decide, by decide⟩

/-- C5 (amended): the jump-simplification pass kills every live,
non-`no_optimize` `JMP` record whose successor exists and is a branch
target (which covers every `JMP` whose target is the immediately following
labelled record); a record whose opcode is not `JMP` — conditional
branches and `BRA` included — is never killed by this pass. -/
theorem c5_amended_jumps_only_jmp (l : List Rec) (i : Nat) (d : Rec) :
    ((l.getD i d).is_dead = false → (l.getD i d).no_optimize = false →
      (l.getD i d).opcode = some "JMP" → i + 1 < l.length →
      (l.getD (i + 1) d).is_branch_target = true →
      ((jumpsGo l).1.getD i d).is_dead = true) ∧
    ((l.getD i d).opcode ≠ some "JMP" →
      ((jumpsGo l).1.getD i d).is_dead = (l.getD i d).is_dead) := by
  constructor
  · intro h1 h2 h3 h4 h5
    rw [jumpsGo_dead_iff, h1, h2, h3, h5]
    simp [h4]
  · intro h1
    have hbeq : ((l.getD i d).opcode == some "JMP") = false := by
      cases h : ((l.getD i d).opcode == some "JMP")
      · rfl
      · exact absurd (by simpa using h) h1
    rw [jumpsGo_dead_iff, hbeq]
    simp

/-- C5 witness: the amended statement applied to the analyzed
`JMP far / near: NOP / far: RTS` program at index 0. -/
theorem c5_witness :
    ((((analyze_call_flow_ast jmpElsewhereProg).recs.getD 0
        (emptyRec 0)).is_dead = false) ∧
     (((analyze_call_flow_ast jmpElsewhereProg).recs.getD 0
        (emptyRec 0)).opcode = some "JMP")) ∧
    ((jumpsGo (analyze_call_flow_ast jmpElsewhereProg).recs).1.getD 0
        (emptyRec 0)).is_dead = true := by
  refine ⟨⟨by decide, by decide⟩, ?_⟩
  exact (c5_amended_jumps_only_jmp
    (analyze_call_flow_ast jmpElsewhereProg).recs 0 (emptyRec 0)).1
    (by decide) (by decide) (by decide) (by decide) (by decide)

/-- C6: the jump-simplification pass marks a record dead exactly when it was
already dead or it is a live, non-`no_optimize` `JMP` whose successor exists
and is a branch target — the `JMP`'s operand never enters the condition.
Consequently a `JMP far` immediately followed by the unrelated label `near`
is also removed. -/
theorem c6_jumps_ignore_operand :
    (∀ (l : List Rec) (i : Nat) (d : Rec),
      ((jumpsGo l).1.getD i d).is_dead =
        ((l.getD i d).is_dead ||
          (!(l.getD i d).is_dead && !(l.getD i d).no_optimize &&
           (l.getD i d).opcode == some "JMP" && decide (i + 1 < l.length) &&
           (l.getD (i + 1) d).is_branch_target))) ∧
    ((((analyze_call_flow_ast jmpElsewhereProg).recs.getD 0
        (emptyRec 0)).operand = some "far") ∧
     (((analyze_call_flow_ast jmpElsewhereProg).recs.getD 1
        (emptyRec 0)).label = some "near") ∧
     (((optimize_jumps_ast (analyze_call_flow_ast jmpElsewhereProg)).recs.getD 0
        (emptyRec 0)).is_dead = true)) := by
  exact ⟨jumpsGo_dead_iff, by decide, by decide, by decide⟩

/-- C7 counterexample: tokenizing the single comment-only line `; #NOOPT`
into a fresh program (optimizer enabled) yields a directive record whose own
`no_optimize` flag is `true` — it reflects the POST-flip state, not the
enabled state in force before the flip as the claim asserts. -/
theorem c7_counterexample :
    ((addLines genericConfig true 0 [nooptLine]).getD 0
        (emptyRec 0)).no_optimize = true ∧
    directiveStep genericConfig true nooptLine = false := by
  exact ⟨by decide, by decide⟩

/-- C7 (amended): a comment-only `#NOOPT` (resp. `#OPT`) line flips the
optimizer-enable flag BEFORE the directive line itself is latched: the
directive record's own `no_optimize` reflects the post-flip state (`true`
after `#NOOPT`, `false` after `#OPT`, whatever the previous state), and all
subsequent lines are tokenized under the new state. -/
theorem c7_amended_directive_flip (e : Bool) (n : Nat)
    (rest : List (List Char)) :
    addLines genericConfig e n (nooptLine :: rest) =
      { parse_line_ast nooptLine n genericConfig with no_optimize := true } ::
        addLines genericConfig false (n + 1) rest ∧
    addLines genericConfig e n (optLine :: rest) =
      { parse_line_ast optLine n genericConfig with no_optimize := false } ::
        addLines genericConfig true (n + 1) rest := by
  exact ⟨rfl, rfl⟩

/-- C8 counterexample: the program consisting of the single line
`foo: NOP` has no control-transfer instruction at all, so label `foo` is
referenced by nothing — yet after Control-Flow Analysis its record has
`is_branch_target = true`.  The "only if" direction of the claimed
equivalence fails on the code. -/
theorem c8_counterexample :
    ((soloLabelRecs.getD 0 (emptyRec 0)).is_branch_target = true) ∧
    labelReferenced soloLabelRecs 0 = false := by
  exact ⟨by decide, by decide⟩

/-- C8 (amended): Control-Flow Analysis marks a record a branch target iff
it already was one or its node type is `NODE_LABEL` (i.e. it defines a
label) — reference counts play no part; and the tokenizer never sets the
flag (every freshly parsed record has `is_branch_target = false`). -/
theorem c8_amended_every_label_marked :
    (∀ (l : List Rec) (i : Nat) (d : Rec), i < l.length →
      ((markBT l).getD i d).is_branch_target =
        ((l.getD i d).is_branch_target ||
          (l.getD i d).type == NodeType.NODE_LABEL)) ∧
    (∀ (cfg : AsmConfig) (ln : List Char) (n : Nat),
      (parse_line_ast ln n cfg).is_branch_target = false) := by
  exact ⟨fun l i d hi => markBT_getD l i d hi, fun cfg ln n => parse_line_bt ln n cfg⟩

/-- C8 witness: the amended statement applied to the one-record `foo: NOP`
program. -/
theorem c8_witness :
    0 < (addLines genericConfig true 0 [("foo: NOP").toList]).length ∧
    ((markBT (addLines genericConfig true 0 [("foo: NOP").toList])).getD 0
        (emptyRec 0)).is_branch_target =
      (((addLines genericConfig true 0 [("foo: NOP").toList]).getD 0
          (emptyRec 0)).is_branch_target ||
        ((addLines genericConfig true 0 [("foo: NOP").toList]).getD 0
          (emptyRec 0)).type == NodeType.NODE_LABEL) := by
  refine ⟨by decide, ?_⟩
  exact c8_amended_every_label_marked.1
    (addLines genericConfig true 0 [("foo: NOP").toList]) 0 (emptyRec 0)
    (by decide)

/-- C9 counterexample: `JSR sub / RTS / sub: LDA #$01 / RTS` is a subroutine
called exactly once, with a one-instruction body, no nested call and no
`no_optimize` record — eligible under every condition of the claim — yet
the inlining pass changes nothing: the call is not killed, no record is
added, nothing is spliced. -/
theorem c9_counterexample :
    optimize_inline_subroutines_ast (analyze_call_flow_ast inlineProg) =
      analyze_call_flow_ast inlineProg ∧
    (((analyze_call_flow_ast inlineProg).recs.getD 0
        (emptyRec 0)).opcode = some "JSR") ∧
    (((optimize_inline_subroutines_ast
        (analyze_call_flow_ast inlineProg)).recs.getD 0
        (emptyRec 0)).is_dead = false) ∧
    (((analyze_call_flow_ast inlineProg).recs.filter
        (fun r => r.opcode == some "JSR")).length = 1) ∧
    ((analyze_call_flow_ast inlineProg).recs.all
        (fun r => !r.no_optimize) = true) := by
  exact ⟨rfl, by decide, by decide, by decide, by decide⟩

/-- C9 (amended): the one-shot inlining pass is an unimplemented
placeholder: it runs once before the first scheduler round and performs no
mutation at all — no subroutine is ever inlined. -/
theorem c9_amended_inline_is_noop (p : Prog) :
    optimize_inline_subroutines_ast p = p := rfl

/-- C10: for every program the scheduler performs `k` rounds with
`1 ≤ k ≤ 10`, where every round before the last strictly increased the
cumulative rewrite count, and if it stopped before the 10-round cap then
the final round added no rewrites; each round is the fixed pipeline
analysis → peephole → load/store → register usage → constant propagation →
65C02 substitution → 45GS02 substitution → jump simplification →
dead-code elimination (last). -/
theorem c10_scheduler_bounded (p : Prog) :
    (∃ k, 1 ≤ k ∧ k ≤ 10 ∧
      optimize_program_ast p =
        Nat.iterate runRound k
          (optimize_inline_subroutines_ast (analyze_call_flow_ast p)) ∧
      (∀ j, j + 1 < k →
        (Nat.iterate runRound (j + 1)
            (optimize_inline_subroutines_ast (analyze_call_flow_ast p))).optimizations >
          (Nat.iterate runRound j
            (optimize_inline_subroutines_ast (analyze_call_flow_ast p))).optimizations) ∧
      (k < 10 →
        ¬((Nat.iterate runRound k
              (optimize_inline_subroutines_ast (analyze_call_flow_ast p))).optimizations >
            (Nat.iterate runRound (k - 1)
              (optimize_inline_subroutines_ast (analyze_call_flow_ast p))).optimizations))) ∧
    runRound = fun q =>
      optimize_dead_code_ast
        (optimize_jumps_ast
          (optimize_45gs02_instructions_ast
            (optimize_65c02_instructions_ast
              (optimize_constant_propagation_ast
                (optimize_register_usage_ast
                  (optimize_load_store_ast
                    (optimize_peephole_ast
                      (analyze_call_flow_ast q)))))))) := by
  constructor
  · exact optLoop_spec 10
      (optimize_inline_subroutines_ast (analyze_call_flow_ast p)) (by omega)
  · rfl

/-- C10 witness: the bound instantiated at the concrete 65C02 scenario. -/
theorem c10_witness :
    ∃ k, 1 ≤ k ∧ k ≤ 10 ∧
      optimize_program_ast scenarioA =
        Nat.iterate runRound k
          (optimize_inline_subroutines_ast (analyze_call_flow_ast scenarioA)) :=
  match (c10_scheduler_bounded scenarioA).1 with
  | ⟨k, h1, h2, h3, _, _⟩ => ⟨k, h1, h2, h3⟩

end Opt6502
